import Mathlib

/-!
Verification of the scoring engine of the sunset-prediction repository.

The scoring pipeline lives in `src/components/SunsetPredictor.tsx` (the
file `unnamed/part_000` is a near-identical variant with the same scoring
code), and the parameter store (weights and model import/export) lives in
the SunsetPredictor variant concatenated into
`src/components/ui/input.tsx`.  Numbers are modelled as rationals,
timestamps as integers (milliseconds), JavaScript `undefined` as
`Option.none`.  `Math.round` rounds half toward positive infinity,
modelled by `jround` below.
-/

set_option maxRecDepth 4000

namespace Sunset

/-- JavaScript Math.min on two rationals (kernel-reducible form). -/
def qmin (a b : ℚ) : ℚ := if a ≤ b then a else b

/-- JavaScript Math.max on two rationals (kernel-reducible form). -/
def qmax (a b : ℚ) : ℚ := if a ≤ b then b else a

/-- JavaScript Math.abs on a rational (kernel-reducible form). -/
def qabs (x : ℚ) : ℚ := if x < 0 then -x else x

/-- JavaScript Math.round: round half toward positive infinity. -/
def jround (x : ℚ) : ℤ := ⌊x + 1/2⌋

/-- Embeds the clamp helper: `Math.max(a, Math.min(b,x))`. -/
def clamp (x a b : ℚ) : ℚ := qmax a (qmin b x)

/-- Embeds the tri helper: `clamp(1 - Math.abs(x-m)/w, 0, 1)`. -/
def tri (x m w : ℚ) : ℚ := clamp (1 - qabs (x - m) / w) 0 1

/-- Embeds `labelFromScore`: the five qualitative labels with their
score thresholds. -/
def labelFromScore (s : ℚ) : String :=
  if s ≥ 85 then "🔥 Fire / 火烧云"
  else if s ≥ 70 then "Great / 极佳"
  else if s ≥ 55 then "Good / 较好"
  else if s ≥ 40 then "Fair / 一般"
  else "Poor / 不佳"

/-- Embeds metersToKm: undefined passes through, a number becomes m/1000. -/
def metersToKm (m : Option ℚ) : Option ℚ := m.map (fun x => x / 1000)

/-- The minimum of a list, `Math.min(...l)` (none on the empty list,
where JavaScript would give Infinity; the code never reaches that case). -/
def listMin : List ℚ → Option ℚ
  | [] => none
  | x :: xs => some (xs.foldl qmin x)

/-- The maximum of a list, `Math.max(...l)`. -/
def listMax : List ℚ → Option ℚ
  | [] => none
  | x :: xs => some (xs.foldl qmax x)

/-- Embeds `normalizePctArray`: drop undefined entries; if the maximum
absolute value of the remaining batch is at most 1.01 treat the batch as
fractional and multiply every value by 100, otherwise leave it unchanged. -/
def normalizePctArray (arr : List (Option ℚ)) : List ℚ :=
  let nums := arr.filterMap id
  match nums with
  | [] => []
  | x :: xs =>
    let maxAbs := (xs.map qabs).foldl qmax (qabs x)
    if maxAbs ≤ 101/100 then (x :: xs).map (fun v => v * 100) else x :: xs

/-- Embeds StatAgg: optional avg, min and max fields. -/
structure StatAgg where
  avg : Option ℚ
  min : Option ℚ
  max : Option ℚ
deriving DecidableEq, Repr

/-- Embeds `aggPctOverIndices`: pick the values at the selected indices,
drop undefined ones, run the batch through `normalizePctArray`, then
average / min / max.  An empty pick gives the all-absent aggregate. -/
def aggPctOverIndices (source : List (Option ℚ)) (idx : List ℕ) : StatAgg :=
  let picked := (idx.map (fun i => source.getD i none)).filterMap id
  if picked = [] then ⟨none, none, none⟩ else
  let norm := normalizePctArray (picked.map some)
  let sum := norm.foldl (fun a b => a + b) 0
  ⟨some (sum / norm.length), listMin norm, listMax norm⟩

/-- Embeds `aggNumOverIndices`: pick the values at the selected indices,
drop undefined ones, optionally map each value, then average / min / max.
An empty pick gives the all-absent aggregate. -/
def aggNumOverIndices (source : List (Option ℚ)) (idx : List ℕ)
    (f : Option (ℚ → ℚ)) : StatAgg :=
  let picked := (idx.map (fun i => source.getD i none)).filterMap id
  if picked = [] then ⟨none, none, none⟩ else
  let vals := match f with | some g => picked.map g | none => picked
  let sum := vals.foldl (fun a b => a + b) 0
  ⟨some (sum / vals.length), listMin vals, listMax vals⟩

/-- Embeds the `defaultWeights` object and the `Weights` type. -/
structure Weights where
  highCloud : ℚ
  midCloud : ℚ
  lowCloud : ℚ
  precip : ℚ
  visibility : ℚ
  wind : ℚ
  aerosol : ℚ
deriving DecidableEq, Repr

/-- Embeds defaultWeights: highCloud 0.35, midCloud 0.25, lowCloud 0.15,
precip 0.10, visibility 0.07, wind 0.08, aerosol 0.00. -/
def defaultWeights : Weights :=
  ⟨35/100, 25/100, 15/100, 10/100, 7/100, 8/100, 0⟩

/-- Embeds `sHigh = ccHigh==null?0.5:tri(ccHigh,50,40)`. -/
def sHighOf (cc : Option ℚ) : ℚ :=
  match cc with | none => 1/2 | some c => tri c 50 40

/-- Embeds `sMid = ccMid==null?0.5:tri(ccMid,40,35)`. -/
def sMidOf (cc : Option ℚ) : ℚ :=
  match cc with | none => 1/2 | some c => tri c 40 35

/-- Embeds `sLow = ccLow==null?0.5:1 - tri(ccLow,20,25)`. -/
def sLowOf (cc : Option ℚ) : ℚ :=
  match cc with | none => 1/2 | some c => 1 - tri c 20 25

/-- Embeds `sPre = pPrecip==null?0.6:1 - clamp(pPrecip/100,0,1)`. -/
def sPreOf (p : Option ℚ) : ℚ :=
  match p with | none => 3/5 | some c => 1 - clamp (c / 100) 0 1

/-- Embeds `sVis = visKm==null?0.6:clamp((visKm-5)/10,0,1)`. -/
def sVisOf (v : Option ℚ) : ℚ :=
  match v with | none => 3/5 | some c => clamp ((c - 5) / 10) 0 1

/-- Embeds `sWind = wind==null?0.6:tri(wind,4,4)`. -/
def sWindOf (w : Option ℚ) : ℚ :=
  match w with | none => 3/5 | some c => tri c 4 4

/-- Embeds `sAod = 0.6` (placeholder aerosol score, not wired to data). -/
def sAod : ℚ := 3/5

/-- Embeds ExplainRow: key, label, score s, weight w, contribution, note. -/
structure ExplainRow where
  key : String
  label : String
  s : ℚ
  w : ℚ
  contribution : ℚ
  note : Option String
deriving DecidableEq, Repr

/-- The note attached to a factor row: `avg==null ? "No data / 无数据" :
undefined`. -/
def noDataNote (v : Option ℚ) : Option String :=
  match v with | none => some ("No data / 无数据") | some _ => none

/-- Embeds the `parts` construction of the `sunsets` memo: the seven
explanation rows, each given its contribution
`Math.round(it.s * it.w * 1000)/10`. -/
def scoreParts (w : Weights) (ccHigh ccMid ccLow pPrecip visKm wind : Option ℚ) :
    List ExplainRow :=
  ([ ⟨"high", "High cloud / 高云", sHighOf ccHigh, w.highCloud, 0, noDataNote ccHigh⟩,
     ⟨"mid", "Mid cloud / 中云", sMidOf ccMid, w.midCloud, 0, noDataNote ccMid⟩,
     ⟨"low", "Low cloud / 低云", sLowOf ccLow, w.lowCloud, 0, noDataNote ccLow⟩,
     ⟨"pre", "Precip prob / 降水概率", sPreOf pPrecip, w.precip, 0, noDataNote pPrecip⟩,
     ⟨"vis", "Visibility / 能见度", sVisOf visKm, w.visibility, 0, noDataNote visKm⟩,
     ⟨"wind", "Wind / 风速", sWindOf wind, w.wind, 0, noDataNote wind⟩,
     ⟨"aod", "Aerosol / 气溶胶(占位)", sAod, w.aerosol, 0, some ("Not wired yet / 暂未接入")⟩ ] :
   List ExplainRow).map
    (fun it => { it with contribution := (jround (it.s * it.w * 1000) : ℚ) / 10 })

/-- Embeds the index-selection loop: `for i: if t[i]>=windowStart &&
t[i]<=windowEnd push i`, with `windowStart = sunset - windowMinutes*60*1000`
and `windowEnd = sunset + windowMinutes*60*1000` (times in milliseconds). -/
def windowIdx (t : List ℤ) (sunset windowMinutes : ℤ) : List ℕ :=
  let windowStart := sunset - windowMinutes * 60 * 1000
  let windowEnd := sunset + windowMinutes * 60 * 1000
  (List.range t.length).filter
    (fun i => decide (windowStart ≤ t.getD i 0) && decide (t.getD i 0 ≤ windowEnd))

/-- Embeds the hourly response: the timestamp sequence and the optional
parallel factor sequences (`data.hourly.xxx ?? []` appears at the use
sites, so each absent sequence is the empty list). -/
structure HourlyData where
  time : List ℤ
  cloudcover_high : List (Option ℚ)
  cloudcover_mid : List (Option ℚ)
  cloudcover_low : List (Option ℚ)
  precipitation_probability : List (Option ℚ)
  visibility : List (Option ℚ)
  wind_speed_10m : List (Option ℚ)
deriving Repr

/-- Embeds one `SunsetItem` (the Date and locale-string fields, pure
rendering of the externally supplied sunset instant, are not modelled). -/
structure SunsetItem where
  score : ℤ
  label : String
  aggHigh : StatAgg
  aggMid : StatAgg
  aggLow : StatAgg
  aggPrecip : StatAgg
  aggVisKm : StatAgg
  aggWind : StatAgg
  explainItems : List ExplainRow
  explainTotal : ℤ
deriving DecidableEq, Repr

/-- Embeds one iteration of the per-day loop of the `sunsets` memo: select
the window indices around the given sunset instant, skip the day (`none`)
when no index qualifies, otherwise aggregate each factor, score,
and assemble the item.  The sunset instant itself comes from the external
SunCalc collaborator and is a parameter here. -/
def sunsetDay (hourly : HourlyData) (w : Weights) (sunset windowMinutes : ℤ) :
    Option SunsetItem :=
  let idx := windowIdx hourly.time sunset windowMinutes
  if idx = [] then none else
  let aggHigh := aggPctOverIndices hourly.cloudcover_high idx
  let aggMid := aggPctOverIndices hourly.cloudcover_mid idx
  let aggLow := aggPctOverIndices hourly.cloudcover_low idx
  let aggPrecip := aggPctOverIndices hourly.precipitation_probability idx
  let aggVisKm := aggNumOverIndices hourly.visibility idx (some (fun m => m / 1000))
  let aggWind := aggNumOverIndices hourly.wind_speed_10m idx none
  let parts := scoreParts w aggHigh.avg aggMid.avg aggLow.avg
    aggPrecip.avg aggVisKm.avg aggWind.avg
  let score0 := parts.foldl (fun acc it => acc + it.contribution) 0
  let score := jround (clamp score0 0 100)
  some ⟨score, labelFromScore (score : ℚ), aggHigh, aggMid, aggLow,
    aggPrecip, aggVisKm, aggWind, parts, score⟩

/-- Embeds the whole `sunsets` memo: one pass per requested day; the
external SunCalc collaborator supplies one sunset instant per day; days
with an empty window are skipped (`continue`). -/
def sunsets (hourly : HourlyData) (w : Weights) (sunsetTimes : List ℤ)
    (windowMinutes : ℤ) : List SunsetItem :=
  sunsetTimes.filterMap (fun ss => sunsetDay hourly w ss windowMinutes)

/-! ### Spec-side vocabulary -/

/-- Modelled from the spec: rounding to one decimal place. -/
def round1 (x : ℚ) : ℚ := (jround (x * 10) : ℚ) / 10

/-- Modelled from the spec: the Triangular score model,
`clamp(1 − |value − ideal| / tolerance, 0, 1)`. -/
def triangularModel (ideal tol v : ℚ) : ℚ := clamp (1 - |v - ideal| / tol) 0 1

/-- Modelled from the spec: the Inverse-triangular score model,
`1 − triangular(...)`. -/
def invTriangularModel (ideal tol v : ℚ) : ℚ := 1 - triangularModel ideal tol v

/-- Modelled from the spec: the Threshold-up score model,
`clamp((value − threshold) / (full − threshold), 0, 1)`. -/
def thresholdUpModel (threshold full v : ℚ) : ℚ :=
  clamp ((v - threshold) / (full - threshold)) 0 1

/-- Modelled from the spec: the Threshold-down score model,
`1 − clamp((value − min) / (max − min), 0, 1)`. -/
def thresholdDownModel (lo hi v : ℚ) : ℚ := 1 - clamp ((v - lo) / (hi - lo)) 0 1

/-- Modelled from the spec: the abstract qualitative label vocabulary of
the five score tiers. -/
inductive QualLabel where
  | exceptional
  | great
  | good
  | fair
  | poor
deriving DecidableEq, Repr

/-- Maps the concrete bilingual label strings of `labelFromScore` to the
spec's abstract qualitative tiers. -/
def labelQual (s : String) : Option QualLabel :=
  if s = "🔥 Fire / 火烧云" then some QualLabel.exceptional
  else if s = "Great / 极佳" then some QualLabel.great
  else if s = "Good / 较好" then some QualLabel.good
  else if s = "Fair / 一般" then some QualLabel.fair
  else if s = "Poor / 不佳" then some QualLabel.poor
  else none

/-! ### Bridge lemmas between the JavaScript-style operations and
Mathlib's order operations -/

theorem qmin_eq_min (a b : ℚ) : qmin a b = min a b := (min_def a b).symm

theorem qmax_eq_max (a b : ℚ) : qmax a b = max a b := (max_def a b).symm

theorem qabs_eq_abs (x : ℚ) : qabs x = |x| := by
  unfold qabs
  split
  · exact (abs_of_neg (by assumption)).symm
  · exact (abs_of_nonneg (not_lt.mp (by assumption))).symm

theorem clamp_eq_max_min (x a b : ℚ) : clamp x a b = max a (min b x) := by
  rw [clamp, qmax_eq_max, qmin_eq_min]

theorem clamp_lower (x a b : ℚ) : a ≤ clamp x a b := by
  rw [clamp_eq_max_min]; exact le_max_left a _

theorem clamp_upper (x a b : ℚ) (h : a ≤ b) : clamp x a b ≤ b := by
  rw [clamp_eq_max_min]; exact max_le h (min_le_left b x)

theorem clamp_of_mem (x a b : ℚ) (h1 : a ≤ x) (h2 : x ≤ b) : clamp x a b = x := by
  rw [clamp_eq_max_min, min_eq_right h2, max_eq_right h1]

/-- Helper: the triangular score at distance d from the ideal, for
0 ≤ d ≤ w, is exactly 1 − d/w. -/
theorem tri_eq_of_close (x m w : ℚ) (hw : 0 < w) (h : |x - m| ≤ w) :
    tri x m w = 1 - |x - m| / w := by
  rw [tri, qabs_eq_abs]
  refine clamp_of_mem _ _ _ ?_ ?_
  · have : |x - m| / w ≤ 1 := (div_le_one hw).mpr h
    linarith
  · have : 0 ≤ |x - m| / w := div_nonneg (abs_nonneg _) hw.le
    linarith

/-! ### C6: properties of the triangular model -/

/-- C6: for every triangular model with tolerance strictly positive, the
score at the ideal value is 1, the score at ideal ± tolerance is 0, the
score at ideal ± tolerance/2 is 0.5, and the score always lies in the
interval from 0 to 1. -/
theorem tri_triangular_properties (m w x : ℚ) (hw : 0 < w) :
    tri m m w = 1 ∧ tri (m + w) m w = 0 ∧ tri (m - w) m w = 0 ∧
    tri (m + w / 2) m w = 1/2 ∧ tri (m - w / 2) m w = 1/2 ∧
    0 ≤ tri x m w ∧ tri x m w ≤ 1 := by
  have hw0 : w ≠ 0 := hw.ne'
  have habs : |w| = w := abs_of_pos hw
  refine ⟨?_, ?_, ?_, ?_, ?_, ?_, ?_⟩
  · rw [tri_eq_of_close m m w hw (by simp [abs_nonneg, hw.le])]
    simp
  · rw [tri_eq_of_close _ m w hw (by simp [habs])]
    rw [add_sub_cancel_left, habs, div_self hw0, sub_self]
  · rw [tri_eq_of_close _ m w hw (by rw [sub_sub_cancel_left, abs_neg, habs])]
    rw [sub_sub_cancel_left, abs_neg, habs, div_self hw0, sub_self]
  · have hd : m + w / 2 - m = w / 2 := by ring
    have habs2 : |w / 2| = w / 2 := abs_of_pos (by linarith)
    rw [tri_eq_of_close _ m w hw (by rw [hd, habs2]; linarith), hd, habs2]
    field_simp
    ring
  · have hd : m - w / 2 - m = -(w / 2) := by ring
    have habs2 : |(-(w / 2))| = w / 2 := by
      rw [abs_neg]; exact abs_of_pos (by linarith)
    rw [tri_eq_of_close _ m w hw (by rw [hd, habs2]; linarith), hd, habs2]
    field_simp
    ring
  · exact clamp_lower _ _ _
  · exact clamp_upper _ _ _ (by norm_num)

/-- Witness for C6 at a concrete triangular model (the code's high-cloud
model, ideal 50 tolerance 40, probed at 70). -/
theorem tri_triangular_properties_witness :
    tri 50 50 40 = 1 ∧ tri (50 + 40) 50 40 = 0 ∧ tri (50 - 40) 50 40 = 0 ∧
    tri (50 + 40 / 2) 50 40 = 1/2 ∧ tri (50 - 40 / 2) 50 40 = 1/2 ∧
    0 ≤ tri 70 50 40 ∧ tri 70 50 40 ≤ 1 :=
  tri_triangular_properties 50 40 70 (by norm_num)

/-! ### C2: the factor-score model parameters -/

/-- C2 counterexample: the spec's claimed parameters (high cloud ideal 50
tolerance 20, mid cloud ideal 40 tolerance 20, low cloud triangular
centered at 0 tolerance 20) disagree with the code at the concrete inputs
70, 60 and 10. -/
theorem factor_params_counterexample :
    ¬ (sHighOf (some 70) = tri 70 50 20 ∧ sMidOf (some 60) = tri 60 40 20 ∧
       sLowOf (some 10) = tri 10 0 20) := by
  with_unfolding_all decide

/-- C2 amended: the per-factor scores are the spec's parametric model
shapes, but with parameters as actually coded: high cloud triangular
ideal 50 tolerance 40; mid cloud triangular ideal 40 tolerance 35; low
cloud inverse-triangular centered at 20 with tolerance 25; precipitation
threshold-down 0 to 100; visibility threshold-up 5 km to 15 km; wind
triangular ideal 4 tolerance 4. -/
theorem factor_params_amended (c p v wd : ℚ) :
    sHighOf (some c) = triangularModel 50 40 c ∧
    sMidOf (some c) = triangularModel 40 35 c ∧
    sLowOf (some c) = invTriangularModel 20 25 c ∧
    sPreOf (some p) = thresholdDownModel 0 100 p ∧
    sVisOf (some v) = thresholdUpModel 5 15 v ∧
    sWindOf (some wd) = triangularModel 4 4 wd := by
  refine ⟨?_, ?_, ?_, ?_, ?_, ?_⟩
  · simp [sHighOf, tri, triangularModel, qabs_eq_abs]
  · simp [sMidOf, tri, triangularModel, qabs_eq_abs]
  · simp [sLowOf, tri, invTriangularModel, triangularModel, qabs_eq_abs]
  · have : p - 0 = p := by ring
    simp [sPreOf, thresholdDownModel, this]
  · have : (15 : ℚ) - 5 = 10 := by norm_num
    simp [sVisOf, thresholdUpModel, this]
  · simp [sWindOf, tri, triangularModel, qabs_eq_abs]

/-! ### C7: the qualitative label step function -/

/-- C7: the qualitative label is the step function of the composite
total with inclusive lower bounds 85 / 70 / 55 / 40: at least 85 is the
exceptional tier (rendered as the bilingual Fire string), at least 70
great, at least 55 good, at least 40 fair, anything lower poor. -/
theorem label_step_function (s : ℚ) :
    (labelQual (labelFromScore s) = some QualLabel.exceptional ↔ 85 ≤ s) ∧
    (labelQual (labelFromScore s) = some QualLabel.great ↔ 70 ≤ s ∧ s < 85) ∧
    (labelQual (labelFromScore s) = some QualLabel.good ↔ 55 ≤ s ∧ s < 70) ∧
    (labelQual (labelFromScore s) = some QualLabel.fair ↔ 40 ≤ s ∧ s < 55) ∧
    (labelQual (labelFromScore s) = some QualLabel.poor ↔ s < 40) := by
  unfold labelFromScore
  split_ifs with h1 h2 h3 h4 <;> simp [labelQual] <;> repeat' constructor
  all_goals intros
  all_goals linarith

/-! ### Fold helper lemmas -/

theorem foldl_qmax_le_iff (l : List ℚ) (a c : ℚ) :
    l.foldl qmax a ≤ c ↔ a ≤ c ∧ ∀ x ∈ l, x ≤ c := by
  induction l generalizing a with
  | nil => simp
  | cons b t ih =>
    simp only [List.foldl_cons, ih, qmax_eq_max, max_le_iff, List.mem_cons]
    constructor
    · rintro ⟨⟨ha, hb⟩, ht⟩
      exact ⟨ha, fun x hx => hx.elim (fun h => h ▸ hb) (ht x)⟩
    · rintro ⟨ha, hx⟩
      exact ⟨⟨ha, hx b (Or.inl rfl)⟩, fun x h => hx x (Or.inr h)⟩

theorem foldl_qmin_mem (l : List ℚ) (a : ℚ) : l.foldl qmin a ∈ a :: l := by
  induction l generalizing a with
  | nil => simp
  | cons b t ih =>
    have h := ih (qmin a b)
    rw [List.foldl_cons]
    rcases List.mem_cons.mp h with h' | h'
    · rw [h', qmin_eq_min]
      rcases min_choice a b with hc | hc <;> rw [hc] <;> simp
    · exact List.mem_cons.mpr (Or.inr (List.mem_cons.mpr (Or.inr h')))

theorem foldl_qmin_le (l : List ℚ) (a : ℚ) :
    ∀ x ∈ a :: l, l.foldl qmin a ≤ x := by
  induction l generalizing a with
  | nil => simp
  | cons b t ih =>
    intro x hx
    rw [List.foldl_cons]
    rcases List.mem_cons.mp hx with h' | h'
    · subst h'
      exact le_trans (ih _ _ (List.mem_cons_self _ _))
        (by rw [qmin_eq_min]; exact min_le_left _ _)
    · rcases List.mem_cons.mp h' with h'' | h''
      · subst h''
        exact le_trans (ih _ _ (List.mem_cons_self _ _))
          (by rw [qmin_eq_min]; exact min_le_right _ _)
      · exact ih _ _ (List.mem_cons.mpr (Or.inr h''))

theorem foldl_qmax_mem (l : List ℚ) (a : ℚ) : l.foldl qmax a ∈ a :: l := by
  induction l generalizing a with
  | nil => simp
  | cons b t ih =>
    have h := ih (qmax a b)
    rw [List.foldl_cons]
    rcases List.mem_cons.mp h with h' | h'
    · rw [h', qmax_eq_max]
      rcases max_choice a b with hc | hc <;> rw [hc] <;> simp
    · exact List.mem_cons.mpr (Or.inr (List.mem_cons.mpr (Or.inr h')))

theorem foldl_qmax_ge (l : List ℚ) (a : ℚ) :
    ∀ x ∈ a :: l, x ≤ l.foldl qmax a := by
  induction l generalizing a with
  | nil => simp
  | cons b t ih =>
    intro x hx
    rw [List.foldl_cons]
    rcases List.mem_cons.mp hx with h' | h'
    · subst h'
      exact le_trans (by rw [qmax_eq_max]; exact le_max_left _ _)
        (ih _ _ (List.mem_cons_self _ _))
    · rcases List.mem_cons.mp h' with h'' | h''
      · subst h''
        exact le_trans (by rw [qmax_eq_max]; exact le_max_right _ _)
          (ih _ _ (List.mem_cons_self _ _))
      · exact ih _ _ (List.mem_cons.mpr (Or.inr h''))

theorem foldl_add_eq_sum (l : List ℚ) (a : ℚ) :
    l.foldl (fun x y => x + y) a = a + l.sum := by
  induction l generalizing a with
  | nil => simp
  | cons b t ih => rw [List.foldl_cons, ih, List.sum_cons]; ring

theorem filterMap_id_map_some (l : List ℚ) : (l.map some).filterMap id = l := by
  induction l with
  | nil => simp
  | cons b t ih => simp [ih]

/-! ### C4: the unit/scale normalizer decision rule -/

theorem normalizePct_of_small (arr : List ℚ) :
    (∀ v ∈ arr, |v| ≤ 101/100) →
      normalizePctArray (arr.map some) = arr.map (fun v => v * 100) := by
  intro hall
  unfold normalizePctArray
  rw [filterMap_id_map_some]
  match arr, hall with
  | [], _ => simp
  | x :: xs, hall =>
    simp only
    rw [if_pos]
    have h1 : qabs x ≤ 101/100 := by
      rw [qabs_eq_abs]; exact hall x (List.mem_cons_self _ _)
    rw [foldl_qmax_le_iff]
    refine ⟨h1, ?_⟩
    intro y hy
    rcases List.mem_map.mp hy with ⟨v, hv, rfl⟩
    rw [qabs_eq_abs]
    exact hall v (List.mem_cons.mpr (Or.inr hv))

theorem normalizePct_of_large (arr : List ℚ) :
    (∃ v ∈ arr, 101/100 < |v|) → normalizePctArray (arr.map some) = arr := by
  rintro ⟨v, hv, hgt⟩
  unfold normalizePctArray
  rw [filterMap_id_map_some]
  match arr, hv with
  | x :: xs, hv =>
    simp only
    rw [if_neg]
    rw [foldl_qmax_le_iff]
    rintro ⟨h1, h2⟩
    rcases List.mem_cons.mp hv with rfl | hv'
    · rw [qabs_eq_abs] at h1; linarith
    · have := h2 (qabs v) (List.mem_map.mpr ⟨v, hv', rfl⟩)
      rw [qabs_eq_abs] at this; linarith

/-- C4: over a batch of defined percentage-like samples the normalizer
multiplies every value by 100 exactly when the largest absolute value of
the batch is at most 1.01, and returns the batch unchanged otherwise; in
particular the batch 0.3 / 0.6 / 0.9 is rescaled to 30 / 60 / 90 and the
batch 30 / 60 / 90 is left unchanged. -/
theorem normalizer_decision (arr : List ℚ) :
    ((∀ v ∈ arr, |v| ≤ 101/100) →
      normalizePctArray (arr.map some) = arr.map (fun v => v * 100)) ∧
    ((∃ v ∈ arr, 101/100 < |v|) → normalizePctArray (arr.map some) = arr) :=
  ⟨normalizePct_of_small arr, normalizePct_of_large arr⟩

/-- Witness for C4: the fractional batch 0.3 / 0.6 / 0.9 is multiplied by
100 and the percentage batch 30 / 60 / 90 is left unchanged. -/
theorem normalizer_decision_witness :
    normalizePctArray [some (3/10), some (6/10), some (9/10)]
      = List.map (fun v => v * 100) [3/10, 6/10, 9/10] ∧
    normalizePctArray [some 30, some 60, some 90] = [30, 60, 90] :=
  ⟨(normalizer_decision [3/10, 6/10, 9/10]).1 (by with_unfolding_all decide),
   (normalizer_decision [30, 60, 90]).2
     ⟨30, List.mem_cons_self _ _, by with_unfolding_all decide⟩⟩

/-! ### C5: the aggregator and missing data -/

theorem picked_eq_filterMap (source : List (Option ℚ)) (idx : List ℕ) :
    (idx.map (fun i => source.getD i none)).filterMap id
      = idx.filterMap (fun i => source.getD i none) := by
  rw [List.filterMap_map]
  rfl

/-- C5: both aggregators exclude the indices where the sequence is
undefined; when nothing defined remains, all three aggregate fields are
absent together; otherwise the average is the arithmetic mean of the
filtered values and min / max are members of the filtered values bounding
them below / above; and on the sequence 10 / undefined / 30 with all
three indices selected the aggregate is average 20, min 10, max 30. -/
theorem aggregator_missing_data (source : List (Option ℚ)) (idx : List ℕ) :
    (idx.filterMap (fun i => source.getD i none) = [] →
      aggNumOverIndices source idx none = ⟨none, none, none⟩ ∧
      aggPctOverIndices source idx = ⟨none, none, none⟩) ∧
    (∀ v vs, idx.filterMap (fun i => source.getD i none) = v :: vs →
      (aggNumOverIndices source idx none).avg
          = some ((v :: vs).sum / ((v :: vs).length : ℚ)) ∧
      (∃ m, (aggNumOverIndices source idx none).min = some m ∧
        m ∈ v :: vs ∧ ∀ x ∈ v :: vs, m ≤ x) ∧
      (∃ M, (aggNumOverIndices source idx none).max = some M ∧
        M ∈ v :: vs ∧ ∀ x ∈ v :: vs, x ≤ M)) ∧
    aggNumOverIndices [some 10, none, some 30] [0, 1, 2] none
      = ⟨some 20, some 10, some 30⟩ ∧
    aggPctOverIndices [some 10, none, some 30] [0, 1, 2]
      = ⟨some 20, some 10, some 30⟩ := by
  refine ⟨?_, ?_, ?_, ?_⟩
  · intro h
    constructor
    · simp only [aggNumOverIndices, picked_eq_filterMap, h]
      simp
    · simp only [aggPctOverIndices, picked_eq_filterMap, h]
      simp
  · intro v vs h
    have hcons : (idx.map (fun i => source.getD i none)).filterMap id = v :: vs := by
      rw [picked_eq_filterMap, h]
    simp only [aggNumOverIndices, hcons, if_neg (List.cons_ne_nil v vs)]
    refine ⟨?_, ?_, ?_⟩
    · simp [foldl_add_eq_sum]
    · exact ⟨vs.foldl qmin v, rfl, foldl_qmin_mem vs v, foldl_qmin_le vs v⟩
    · exact ⟨vs.foldl qmax v, rfl, foldl_qmax_mem vs v, foldl_qmax_ge vs v⟩
  · with_unfolding_all decide
  · with_unfolding_all decide

/-- Witness for C5 at concrete inputs: an all-undefined selection gives
the all-absent aggregate, and the documented 10 / undefined / 30 example
has average 20. -/
theorem aggregator_missing_data_witness :
    (aggNumOverIndices [(none : Option ℚ)] [0] none = ⟨none, none, none⟩ ∧
     aggPctOverIndices [(none : Option ℚ)] [0] = ⟨none, none, none⟩) ∧
    (aggNumOverIndices [some 10, none, some 30] [0, 1, 2] none).avg
      = some (([10, 30] : List ℚ).sum / (([10, 30] : List ℚ).length : ℚ)) := by
  refine ⟨(aggregator_missing_data [(none : Option ℚ)] [0]).1 ?_,
    ((aggregator_missing_data [some 10, none, some 30] [0, 1, 2]).2.1 10 [30] ?_).1⟩
  · with_unfolding_all decide
  · with_unfolding_all decide

/-! ### C3: window selection and empty-window skipping -/

/-- C3: the selected index list holds exactly the indices whose timestamp
lies within the inclusive window of halfWidth minutes around the sunset
instant, in ascending order; and a day whose window selects no index
yields no SunsetItem at all (the per-day computation returns none exactly
then).  The sample layout of the spec (sunset T, half-width 90 minutes,
samples at T−91m, T−30m, T+89m, T+91m) selects exactly the middle two. -/
theorem window_selection (t : List ℤ) (sunset halfW : ℤ) :
    (∀ i, i ∈ windowIdx t sunset halfW ↔
      i < t.length ∧ sunset - halfW * 60 * 1000 ≤ t.getD i 0 ∧
        t.getD i 0 ≤ sunset + halfW * 60 * 1000) ∧
    List.Sorted (fun a b => a < b) (windowIdx t sunset halfW) ∧
    (∀ (hourly : HourlyData) (w : Weights),
      (sunsetDay hourly w sunset halfW = none ↔
        windowIdx hourly.time sunset halfW = [])) ∧
    windowIdx [-5460000, -1800000, 5340000, 5460000] 0 90 = [1, 2] := by
  refine ⟨?_, ?_, ?_, by decide⟩
  · intro i
    simp [windowIdx, List.mem_filter, List.mem_range, and_assoc]
  · exact List.Sorted.filter _ (List.sorted_lt_range t.length)
  · intro hourly w
    by_cases hidx : windowIdx hourly.time sunset halfW = [] <;>
      simp [sunsetDay, hidx]

/-! ### C1 and C9: the explanation table and the composite total -/

/-- A one-sample forecast whose values put every weather factor exactly at
its ideal: high cloud 50, mid cloud 40, low cloud 45, precipitation 0,
visibility 15000 m, wind 4 m/s, with the single sample at the sunset
instant. -/
def hourlyPerfect : HourlyData :=
  ⟨[0], [some 50], [some 40], [some 45], [some 0], [some 15000], [some 4]⟩

/-- The SunsetItem the pipeline produces for `hourlyPerfect` under the
default weights. -/
def itemPerfect : SunsetItem :=
  ⟨100, "🔥 Fire / 火烧云",
   ⟨some 50, some 50, some 50⟩, ⟨some 40, some 40, some 40⟩,
   ⟨some 45, some 45, some 45⟩, ⟨some 0, some 0, some 0⟩,
   ⟨some 15, some 15, some 15⟩, ⟨some 4, some 4, some 4⟩,
   [⟨"high", "High cloud / 高云", 1, 7/20, 35, none⟩,
    ⟨"mid", "Mid cloud / 中云", 1, 1/4, 25, none⟩,
    ⟨"low", "Low cloud / 低云", 1, 3/20, 15, none⟩,
    ⟨"pre", "Precip prob / 降水概率", 1, 1/10, 10, none⟩,
    ⟨"vis", "Visibility / 能见度", 1, 7/100, 7, none⟩,
    ⟨"wind", "Wind / 风速", 1, 2/25, 8, none⟩,
    ⟨"aod", "Aerosol / 气溶胶(占位)", 3/5, 0, 0, some ("Not wired yet / 暂未接入")⟩],
   100⟩

/-- Helper: evaluation of the pipeline on the perfect-conditions day,
assembled from small per-component evaluations. -/
theorem sunsetDay_perfect :
    sunsetDay hourlyPerfect defaultWeights 0 90 = some itemPerfect := by
  have hidx : windowIdx hourlyPerfect.time 0 90 = [0] := by decide
  have hH : aggPctOverIndices hourlyPerfect.cloudcover_high [0]
      = ⟨some 50, some 50, some 50⟩ := by with_unfolding_all decide
  have hM : aggPctOverIndices hourlyPerfect.cloudcover_mid [0]
      = ⟨some 40, some 40, some 40⟩ := by with_unfolding_all decide
  have hL : aggPctOverIndices hourlyPerfect.cloudcover_low [0]
      = ⟨some 45, some 45, some 45⟩ := by with_unfolding_all decide
  have hP : aggPctOverIndices hourlyPerfect.precipitation_probability [0]
      = ⟨some 0, some 0, some 0⟩ := by with_unfolding_all decide
  have hV : aggNumOverIndices hourlyPerfect.visibility [0] (some (fun m => m / 1000))
      = ⟨some 15, some 15, some 15⟩ := by with_unfolding_all decide
  have hW : aggNumOverIndices hourlyPerfect.wind_speed_10m [0] none
      = ⟨some 4, some 4, some 4⟩ := by with_unfolding_all decide
  have hparts : scoreParts defaultWeights (some 50) (some 40) (some 45) (some 0)
      (some 15) (some 4) = itemPerfect.explainItems := by
    simp only [scoreParts, List.map_cons, List.map_nil, itemPerfect, List.cons.injEq,
      ExplainRow.mk.injEq, and_true]
    repeat' constructor
    all_goals with_unfolding_all decide
  have hfold : itemPerfect.explainItems.foldl (fun acc it => acc + it.contribution) 0
      = 100 := by with_unfolding_all decide
  have hscore : jround (clamp 100 0 100) = 100 := by with_unfolding_all decide
  have hlabel : labelFromScore ((100 : ℤ) : ℚ) = "🔥 Fire / 火烧云" := by
    with_unfolding_all decide
  simp only [sunsetDay, hidx, hH, hM, hL, hP, hV, hW, hparts, hfold, hscore, hlabel]
  simp [itemPerfect]

theorem foldl_contribution_eq (l : List ExplainRow) (a : ℚ) :
    l.foldl (fun acc it => acc + it.contribution) a
      = a + (l.map (fun r => r.contribution)).sum := by
  induction l generalizing a with
  | nil => simp
  | cons b t ih => rw [List.foldl_cons, ih, List.map_cons, List.sum_cons]; ring

theorem scoreParts_contribution (w : Weights) (a b c d e f : Option ℚ) :
    ∀ r ∈ scoreParts w a b c d e f, r.contribution = round1 (r.s * r.w * 100) := by
  intro r hr
  rcases List.mem_map.mp hr with ⟨it, _, rfl⟩
  show (jround (it.s * it.w * 1000) : ℚ) / 10 = round1 (it.s * it.w * 100)
  rw [round1]
  have h10 : it.s * it.w * 100 * 10 = it.s * it.w * 1000 := by ring
  rw [h10]

/-- Helper: a day's item, when produced, is assembled from `scoreParts`
and its total is the rounded clamped fold of the row contributions. -/
theorem sunsetDay_explain (hourly : HourlyData) (w : Weights) (ss wm : ℤ)
    (item : SunsetItem) (h : sunsetDay hourly w ss wm = some item) :
    ∃ a b c d e f, item.explainItems = scoreParts w a b c d e f ∧
      item.explainTotal = jround (clamp
        (item.explainItems.foldl (fun acc it => acc + it.contribution) 0) 0 100) := by
  by_cases hidx : windowIdx hourly.time ss wm = []
  · simp [sunsetDay, hidx] at h
  · simp only [sunsetDay] at h
    rw [if_neg hidx] at h
    injection h with h'
    subst h'
    exact ⟨_, _, _, _, _, _, rfl, rfl⟩

/-- C1: in every produced explanation table each row's contribution is
the row's normalized score times its weight times 100 rounded to one
decimal place, and the composite total is the sum of the row
contributions clamped to the interval 0 to 100 and rounded to an
integer; in particular a day whose six factor scores are all 1 under
the default weights totals exactly 100. -/
theorem contribution_and_total (hourly : HourlyData) (w : Weights) (ss wm : ℤ)
    (item : SunsetItem) (h : sunsetDay hourly w ss wm = some item) :
    (∀ r ∈ item.explainItems, r.contribution = round1 (r.s * r.w * 100)) ∧
    item.explainTotal = jround (clamp
      ((item.explainItems.map (fun r => r.contribution)).sum) 0 100) ∧
    (sunsetDay hourlyPerfect defaultWeights 0 90).map
        (fun it => ((it.explainItems.map (fun r => r.s)).take 6, it.explainTotal))
      = some ([1, 1, 1, 1, 1, 1], 100) := by
  obtain ⟨a, b, c, d, e, f, hitems, htotal⟩ := sunsetDay_explain hourly w ss wm item h
  refine ⟨?_, ?_, ?_⟩
  · rw [hitems]; exact scoreParts_contribution w a b c d e f
  · rw [htotal, foldl_contribution_eq, zero_add]
  · rw [sunsetDay_perfect]
    with_unfolding_all decide

/-- Witness for C1 at the concrete perfect-conditions day. -/
theorem contribution_and_total_witness :
    (∀ r ∈ itemPerfect.explainItems, r.contribution = round1 (r.s * r.w * 100)) ∧
    itemPerfect.explainTotal = jround (clamp
      ((itemPerfect.explainItems.map (fun r => r.contribution)).sum) 0 100) ∧
    (sunsetDay hourlyPerfect defaultWeights 0 90).map
        (fun it => ((it.explainItems.map (fun r => r.s)).take 6, it.explainTotal))
      = some ([1, 1, 1, 1, 1, 1], 100) :=
  contribution_and_total hourlyPerfect defaultWeights 0 90 itemPerfect
    sunsetDay_perfect

/-- C9: under the default weights every produced explanation table has
exactly the six weather-factor rows followed by a seventh aerosol row
whose normalized score is the constant 0.6, whose weight is 0, whose
contribution is 0, and which always carries the not-wired-yet note. -/
theorem aerosol_placeholder_row (hourly : HourlyData) (ss wm : ℤ)
    (item : SunsetItem) (h : sunsetDay hourly defaultWeights ss wm = some item) :
    (item.explainItems.map (fun r => r.key))
      = ["high", "mid", "low", "pre", "vis", "wind", "aod"] ∧
    item.explainItems.getLast? = some ⟨"aod", "Aerosol / 气溶胶(占位)", 3/5, 0, 0,
      some ("Not wired yet / 暂未接入")⟩ := by
  obtain ⟨a, b, c, d, e, f, hitems, -⟩ :=
    sunsetDay_explain hourly defaultWeights ss wm item h
  rw [hitems]
  constructor
  · simp [scoreParts]
  · simp only [scoreParts, List.map_cons, List.map_nil, List.getLast?]
    simp [sAod, defaultWeights]
    norm_num [jround]

/-- Witness for C9 at the concrete perfect-conditions day. -/
theorem aerosol_placeholder_row_witness :
    (itemPerfect.explainItems.map (fun r => r.key))
      = ["high", "mid", "low", "pre", "vis", "wind", "aod"] ∧
    itemPerfect.explainItems.getLast? = some ⟨"aod", "Aerosol / 气溶胶(占位)", 3/5, 0, 0,
      some ("Not wired yet / 暂未接入")⟩ :=
  aerosol_placeholder_row hourlyPerfect 0 90 itemPerfect
    sunsetDay_perfect

/-! ### C10: the scale decision is per-window, per-day -/

/-- A two-sample forecast (hour 0 and hour 3) whose high-cloud values mix
a fractional sample 0.5 with a percentage sample 60. -/
def hourlyMix : HourlyData :=
  ⟨[0, 10800000], [some (1/2), some 60], [], [], [], [], []⟩

/-- C10: the 0 to 1 versus 0 to 100 scale decision is taken separately
per day over the defined samples selected by that day's window: a window
whose defined samples are all at most 1.01 in absolute value has them all
multiplied by 100; on the mixed series `hourlyMix` the first day's window
(only the 0.5 sample) is rescaled to average 50 while the second day's
window (only the 60 sample) is left at 60, even though a decision over
the full series would, with its maximum 60, leave the 0.5 unchanged. -/
theorem per_window_scale_decision :
    (∀ (source : List (Option ℚ)) (idx : List ℕ) (v : ℚ) (vs : List ℚ),
      idx.filterMap (fun i => source.getD i none) = v :: vs →
      (∀ x ∈ v :: vs, |x| ≤ 101/100) →
      (aggPctOverIndices source idx).avg
        = some (((v :: vs).map (fun x => x * 100)).sum / ((v :: vs).length : ℚ))) ∧
    (sunsetDay hourlyMix defaultWeights 0 90).map (fun it => it.aggHigh.avg)
      = some (some 50) ∧
    (sunsetDay hourlyMix defaultWeights 10800000 90).map (fun it => it.aggHigh.avg)
      = some (some 60) ∧
    normalizePctArray [some (1/2), some 60] = [1/2, 60] := by
  refine ⟨?_, ?_, ?_, ?_⟩
  · intro source idx v vs h hall
    have hcons : (idx.map (fun i => source.getD i none)).filterMap id = v :: vs := by
      rw [picked_eq_filterMap, h]
    simp only [aggPctOverIndices, hcons, if_neg (List.cons_ne_nil v vs)]
    rw [normalizePct_of_small (v :: vs) hall]
    simp [foldl_add_eq_sum]
  · with_unfolding_all decide
  · with_unfolding_all decide
  · with_unfolding_all decide

/-- Witness for C10: a window holding only the defined fractional sample
0.5 is rescaled by 100, giving average 50. -/
theorem per_window_scale_decision_witness :
    (aggPctOverIndices [some (1/2), none] [0, 1]).avg
      = some ((([(1:ℚ)/2].map (fun x => x * 100)).sum) / (([(1:ℚ)/2]).length : ℚ)) :=
  per_window_scale_decision.1 [some (1/2), none] [0, 1] (1/2) []
    (by with_unfolding_all decide) (by with_unfolding_all decide)

/-! ### C8: the parameter store

The parameter store lives in the SunsetPredictor variant concatenated
into `src/components/ui/input.tsx`: `exportParams` serializes the
version-1 bundle of the current weights and score models, and
`importParams` parses a JSON file, validates it eagerly (version
literal, six numeric weight keys, six model keys) and only then installs
the imported weights and models objects as-is via the two state setters;
every failure throws before either setter runs, so the current state is
untouched. -/

/-- A parsed JSON value in a weights object: a number, or anything
else (string, boolean, null, object), as `typeof v === "number"`
distinguishes them. -/
inductive JVal where
  | num (q : ℚ)
  | other
deriving DecidableEq, Repr

/-- Embeds the `ScoreModel` union of the parameter-store variant:
`TriModel` (with its type tag tri or invTri), `ClampUpModel` and
`ClampDownModel`, each carrying its color and unit presentation
fields. -/
inductive ScoreModelV where
  | tri (m w : ℚ) (color unit : String)
  | invTri (m w : ℚ) (color unit : String)
  | clampUp (threshold full : ℚ) (color unit : String)
  | clampDown (lo hi : ℚ) (color unit : String)
deriving DecidableEq, Repr

/-- Embeds a parsed `ParamBundle` JSON document before validation: each
of `version`, `weights` and `models` may be absent (none), and the
weights object is an association list of arbitrary JSON values so that
missing keys and non-numeric values are representable. -/
structure RawBundle where
  version : Option ℤ
  weights : Option (List (String × JVal))
  models : Option (List (String × ScoreModelV))
deriving DecidableEq, Repr

/-- Embeds the store's React state, `useState(defaultWeights)` and
`useState(defaultModels)`; kept as the installed objects themselves,
since `importParams` installs the cast JSON objects without rebuilding
them. -/
structure ParamStore where
  weights : List (String × JVal)
  models : List (String × ScoreModelV)
deriving DecidableEq, Repr

/-- Embeds `wk = ["highCloud","midCloud","lowCloud","precip","visibility","wind"]`. -/
def weightKeys : List String :=
  ["highCloud", "midCloud", "lowCloud", "precip", "visibility", "wind"]

/-- Embeds `mk = ["high","mid","low","pre","vis","wind"]`. -/
def modelKeys : List String :=
  ["high", "mid", "low", "pre", "vis", "wind"]

/-- Key lookup in an association list (property access on the parsed
JSON object). -/
def lookupKey (l : List (String × α)) (k : String) : Option α :=
  (l.find? (fun p => p.1 == k)).map (fun p => p.2)

/-- Embeds `typeof w[k] === "number"`. -/
def jsonIsNumber (v : Option JVal) : Bool :=
  match v with
  | some (JVal.num _) => true
  | _ => false

/-- Embeds the `defaultWeights` object of the parameter-store variant
(no aerosol entry in this variant). -/
def defaultWeightsV : List (String × JVal) :=
  [(("highCloud"), JVal.num (35/100)), (("midCloud"), JVal.num (25/100)),
   (("lowCloud"), JVal.num (15/100)), (("precip"), JVal.num (1/10)),
   (("visibility"), JVal.num (7/100)), (("wind"), JVal.num (2/25))]

/-- Embeds the `defaultModels` object of the parameter-store variant. -/
def defaultModelsV : List (String × ScoreModelV) :=
  [(("high"), ScoreModelV.tri 50 20 ("#ef4444") ("%")),
   (("mid"), ScoreModelV.tri 40 20 ("#f59e0b") ("%")),
   (("low"), ScoreModelV.tri 0 20 ("#3b82f6") ("%")),
   (("pre"), ScoreModelV.clampDown 0 100 ("#22c55e") ("%")),
   (("vis"), ScoreModelV.clampUp 5 15 ("#a855f7") (" km")),
   (("wind"), ScoreModelV.tri 4 4 ("#0ea5e9") (" m/s"))]

/-- Embeds `exportParams`: the serialized bundle of the current state,
with the version literal 1. -/
def exportParams (cur : ParamStore) : RawBundle :=
  ⟨some 1, some cur.weights, some cur.models⟩

/-- Embeds `importParams`: the checks run in the code's order — the
version literal and the presence of the weights and models objects
first, then every required weight key numeric, then every required
model key present (the code's truthiness test on the model objects) —
and each failure throws its message before either state setter runs, so
the pair returned is the untouched current state with the error; only
when everything passes are the imported weights and models objects
installed as-is, replacing the whole state. -/
def importParams (cur : ParamStore) (json : RawBundle) : ParamStore × Option String :=
  if json.version ≠ some 1 ∨ json.weights = none ∨ json.models = none then
    (cur, some ("文件结构不符合 v1 参数格式"))
  else if ¬ (∀ k ∈ weightKeys, jsonIsNumber (lookupKey (json.weights.getD []) k) = true) then
    (cur, some ("weights 字段缺失或类型错误"))
  else if ¬ (∀ k ∈ modelKeys, (lookupKey (json.models.getD []) k).isSome = true) then
    (cur, some ("models 字段缺失"))
  else
    (⟨json.weights.getD [], json.models.getD []⟩, none)

/-- C8: importing a bundle whose version differs from the literal 1, or
which is missing a required weight key (such as wind) or a required
model key, fails validation with a surfaced reason and leaves the
current weights and model map completely unchanged; a successful import
installs the bundle's weights and models objects wholesale, independent
of the previous state (no partial merge). -/
theorem import_validation (cur : ParamStore) (b : RawBundle) :
    (b.version ≠ some 1 →
      (importParams cur b).1 = cur ∧ (importParams cur b).2.isSome) ∧
    (∀ k ∈ weightKeys, lookupKey (b.weights.getD []) k = none →
      (importParams cur b).1 = cur ∧ (importParams cur b).2.isSome) ∧
    (∀ k ∈ modelKeys, lookupKey (b.models.getD []) k = none →
      (importParams cur b).1 = cur ∧ (importParams cur b).2.isSome) ∧
    ((importParams cur b).2 = none →
      (importParams cur b).1 = ⟨b.weights.getD [], b.models.getD []⟩) := by
  refine ⟨?_, ?_, ?_, ?_⟩
  · intro hv
    unfold importParams
    rw [if_pos (Or.inl hv)]
    exact ⟨rfl, rfl⟩
  · intro k hk hnone
    unfold importParams
    by_cases h1 : b.version ≠ some 1 ∨ b.weights = none ∨ b.models = none
    · rw [if_pos h1]
      exact ⟨rfl, rfl⟩
    · rw [if_neg h1]
      have h2 : ¬ (∀ k ∈ weightKeys,
          jsonIsNumber (lookupKey (b.weights.getD []) k) = true) := by
        intro hall
        have := hall k hk
        rw [hnone] at this
        simp [jsonIsNumber] at this
      rw [if_pos h2]
      exact ⟨rfl, rfl⟩
  · intro k hk hnone
    unfold importParams
    by_cases h1 : b.version ≠ some 1 ∨ b.weights = none ∨ b.models = none
    · rw [if_pos h1]
      exact ⟨rfl, rfl⟩
    · rw [if_neg h1]
      by_cases h2 : ¬ (∀ k ∈ weightKeys,
          jsonIsNumber (lookupKey (b.weights.getD []) k) = true)
      · rw [if_pos h2]
        exact ⟨rfl, rfl⟩
      · rw [if_neg h2]
        have h3 : ¬ (∀ k ∈ modelKeys,
            (lookupKey (b.models.getD []) k).isSome = true) := by
          intro hall
          have := hall k hk
          rw [hnone] at this
          simp at this
        rw [if_pos h3]
        exact ⟨rfl, rfl⟩
  · intro hok
    unfold importParams at hok ⊢
    by_cases h1 : b.version ≠ some 1 ∨ b.weights = none ∨ b.models = none
    · rw [if_pos h1] at hok
      simp at hok
    · rw [if_neg h1] at hok ⊢
      by_cases h2 : ¬ (∀ k ∈ weightKeys,
          jsonIsNumber (lookupKey (b.weights.getD []) k) = true)
      · rw [if_pos h2] at hok
        simp at hok
      · rw [if_neg h2] at hok ⊢
        by_cases h3 : ¬ (∀ k ∈ modelKeys,
            (lookupKey (b.models.getD []) k).isSome = true)
        · rw [if_pos h3] at hok
          simp at hok
        · rw [if_neg h3]

/-- The store holding the built-in defaults, as at startup. -/
def storeBefore : ParamStore := ⟨defaultWeightsV, defaultModelsV⟩

/-- A version-1 bundle with all six model keys but only five weight
keys: the wind weight is missing. -/
def bundleNoWind : RawBundle :=
  ⟨some 1,
   some [(("highCloud"), JVal.num (35/100)), (("midCloud"), JVal.num (25/100)),
         (("lowCloud"), JVal.num (15/100)), (("precip"), JVal.num (1/10)),
         (("visibility"), JVal.num (7/100))],
   some defaultModelsV⟩

/-- The same bundle with an unexpected version literal. -/
def bundleWrongVersion : RawBundle :=
  ⟨some 2, bundleNoWind.weights, bundleNoWind.models⟩

/-- A complete valid bundle holding the default weights and models. -/
def bundleFull : RawBundle :=
  ⟨some 1, some defaultWeightsV, some defaultModelsV⟩

/-- A store with nothing in it, to exhibit that a successful import does
not depend on the previous state. -/
def storeEmpty : ParamStore := ⟨[], []⟩

/-- Witness for C8: the wind-less bundle and the wrong-version bundle
are both rejected leaving the default store unchanged, and the valid
bundle installs its own weights and models even into an empty store. -/
theorem import_validation_witness :
    ((importParams storeBefore bundleNoWind).1 = storeBefore ∧
     (importParams storeBefore bundleNoWind).2.isSome) ∧
    ((importParams storeBefore bundleWrongVersion).1 = storeBefore ∧
     (importParams storeBefore bundleWrongVersion).2.isSome) ∧
    (importParams storeEmpty bundleFull).1
      = ⟨bundleFull.weights.getD [], bundleFull.models.getD []⟩ :=
  ⟨(import_validation storeBefore bundleNoWind).2.1 ("wind")
      (by decide) (by with_unfolding_all decide),
   (import_validation storeBefore bundleWrongVersion).1
      (by with_unfolding_all decide),
   (import_validation storeEmpty bundleFull).2.2.2
      (by with_unfolding_all decide)⟩

end Sunset
